import Mathlib

/-!
Verification development for the crash-game backtesting package
(`ml_service/backtesting`): strategies, simulation engine, metrics
calculator and optimizer, shallowly embedded in Lean.

Modelling conventions:
* Python floats are modelled by `ℚ` (exact arithmetic; the claims under
  study are about control flow and exact algebraic identities, not about
  rounding).  Division by zero is total in `ℚ` (`x / 0 = 0`); the source
  raises `ZeroDivisionError` in those corner states, which the engine
  never reaches under a positive configured bankroll.
* `float('inf')` sentinels are modelled by the three-valued type `XVal`.
* The irrational factor `sqrt(252)` (and `np.std`'s square root) cannot
  live in `ℚ`; Sharpe/Sortino values are therefore represented
  symbolically by `RiskVal`, which records the branch taken by the source
  and, in the finite branch, the rational pair (mean, variance) that the
  source feeds into `(mean/sqrt variance) * sqrt 252`.  The source's
  guard `std > 0` is equivalently modelled as `variance > 0`.
* Python's mutable `Strategy` objects become explicit state passing over
  the record `StrategyState`; every `decide`/`on_round_result` method
  returns the updated state.
* Interpolated parts of the human-readable `reason` strings (loop
  counters spliced into messages) are elided; the constant prefix of each
  message is kept.
-/

/-- `RoundData` (strategies.py lines 26-34): one historical round. -/
structure RoundData where
  id : Int
  multiplier : ℚ
  betCount : Int
  totalBet : ℚ
  totalWin : ℚ
  createdAt : String
deriving DecidableEq

/-- `BetDecision` (strategies.py lines 17-23), with the Python dataclass
defaults `bet_amount=0.0`, `cashout_target=2.0`, `reason=""`. -/
structure BetDecision where
  shouldBet : Bool
  betAmount : ℚ := 0
  cashoutTarget : ℚ := 2
  reason : String := ""
deriving DecidableEq

/-- One entry of `Strategy.history` (the dict appended at
strategies.py lines 80-88). -/
structure TradeRecord where
  roundId : Int
  multiplier : ℚ
  betAmount : ℚ
  target : ℚ
  won : Bool
  profit : ℚ
  bankroll : ℚ
deriving DecidableEq

/-- The mutable state of a `Strategy` object (strategies.py lines 40-49
plus every subclass-specific attribute).  Fields belonging to a variant
that the current strategy is not are simply never read or written by that
variant's methods; `initState` fills them with `0`. -/
structure StrategyState where
  initialBankroll : ℚ
  bankroll : ℚ
  history : List TradeRecord
  consecutiveLosses : ℕ
  consecutiveWins : ℕ
  totalBets : ℕ
  totalWins : ℕ
  pausedRounds : ℕ
  /-- `current_bet` of Martingale / AntiMartingale. -/
  currentBet : ℚ
  /-- `wait_counter` of PatternBased. -/
  waitCounter : ℕ
  /-- `current_target` of AdaptiveTarget. -/
  currentTarget : ℚ
  /-- `rounds_to_skip` of SkipLow. -/
  roundsToSkip : ℕ
deriving DecidableEq

/-- Constructor parameters of `FixedTargetStrategy` (lines 101-117). -/
structure FixedTargetParams where
  target : ℚ := 2
  betPercent : ℚ := 1
  minBet : ℚ := 1
  maxBet : ℚ := 100
  stopLossPercent : ℚ := 50
  takeProfitPercent : ℚ := 100
deriving DecidableEq

/-- Constructor parameters of `MartingaleStrategy` (lines 155-170). -/
structure MartingaleParams where
  target : ℚ := 2
  baseBet : ℚ := 1
  multiplier : ℚ := 2
  maxConsecutiveLosses : ℕ := 5
  stopLossPercent : ℚ := 50
deriving DecidableEq

/-- Constructor parameters of `AntiMartingaleStrategy` (lines 219-236). -/
structure AntiMartingaleParams where
  target : ℚ := 2
  baseBet : ℚ := 1
  multiplier : ℚ := 2
  maxConsecutiveWins : ℕ := 3
  stopLossPercent : ℚ := 50
  takeProfitPercent : ℚ := 100
deriving DecidableEq

/-- Constructor parameters of `PatternBasedStrategy` (lines 287-306). -/
structure PatternBasedParams where
  betPercent : ℚ := 1
  minStreakToBet : ℕ := 3
  streakThreshold : ℚ := 2
  targetAfterStreak : ℚ := 2
  waitAfterHigh : ℕ := 1
  highThreshold : ℚ := 5
  stopLossPercent : ℚ := 50
deriving DecidableEq

/-- Constructor parameters of `AdaptiveTargetStrategy` (lines 368-385). -/
structure AdaptiveTargetParams where
  startTarget : ℚ := 5
  minTarget : ℚ := 3/2
  targetDecrement : ℚ := 1/2
  betPercent : ℚ := 1
  resetAfterWins : ℕ := 2
  stopLossPercent : ℚ := 50
deriving DecidableEq

/-- One value of the `ml_predictions` map of `HybridMLStrategy`; the
source reads each probability with `preds.get(key, 0)`, so absent keys
are modelled as the default `0`. -/
structure MLPrediction where
  probGt2x : ℚ := 0
  probGt3x : ℚ := 0
  probGt5x : ℚ := 0
  probGt10x : ℚ := 0
  probEarlyCrash : ℚ := 0
deriving DecidableEq

/-- Constructor parameters of `HybridMLStrategy` (lines 430-448); the
`round_id -> prediction dict` mapping is an association list, where a
missing id models both an absent key and Python's falsy empty dict. -/
structure HybridMLParams where
  betPercent : ℚ := 1
  minConfidence : ℚ := 3/5
  earlyCrashMaxProb : ℚ := 3/10
  useAdaptiveTarget : Bool := true
  baseTarget : ℚ := 2
  stopLossPercent : ℚ := 50
  mlPredictions : List (Int × MLPrediction) := []
deriving DecidableEq

/-- Constructor parameters of `SafetyFirstStrategy` (lines 520-536). -/
structure SafetyFirstParams where
  safetyTarget : ℚ := 3/2
  profitTarget : ℚ := 3
  safetyBetRatio : ℚ := 7/10
  totalBetPercent : ℚ := 2
  stopLossPercent : ℚ := 50
  takeProfitPercent : ℚ := 100
deriving DecidableEq

/-- Constructor parameters of `SkipLowStrategy` (lines 593-608). -/
structure SkipLowParams where
  target : ℚ := 2
  betPercent : ℚ := 1
  skipAfterBelow : ℚ := 6/5
  skipRounds : ℕ := 2
  stopLossPercent : ℚ := 50
deriving DecidableEq

/-- The closed set of strategy variants defined in strategies.py. -/
inductive StrategyVariant where
  | fixedTarget (p : FixedTargetParams)
  | martingale (p : MartingaleParams)
  | antiMartingale (p : AntiMartingaleParams)
  | patternBased (p : PatternBasedParams)
  | adaptiveTarget (p : AdaptiveTargetParams)
  | hybridML (p : HybridMLParams)
  | safetyFirst (p : SafetyFirstParams)
  | skipLow (p : SkipLowParams)
deriving DecidableEq

/-- `Strategy.__init__` together with the subclass constructors: the
state of a freshly constructed strategy object with the given
`initial_bankroll` argument.  Fields a variant does not own are
initialised to `0` (they are never consulted by that variant). -/
def initState (v : StrategyVariant) (initialBankroll : ℚ) : StrategyState :=
  { initialBankroll := initialBankroll
    bankroll := initialBankroll
    history := []
    consecutiveLosses := 0
    consecutiveWins := 0
    totalBets := 0
    totalWins := 0
    pausedRounds := 0
    currentBet := match v with
      | .martingale p => p.baseBet
      | .antiMartingale p => p.baseBet
      | _ => 0
    waitCounter := 0
    currentTarget := match v with
      | .adaptiveTarget p => p.startTarget
      | _ => 0
    roundsToSkip := 0 }

/-- `Strategy.reset` (lines 51-59) plus the subclass `reset` overrides
(lines 172-174, 238-240, 308-310, 387-389, 610-612). -/
def Strategy.reset (v : StrategyVariant) (st : StrategyState) : StrategyState :=
  let base : StrategyState :=
    { st with
      bankroll := st.initialBankroll
      history := []
      consecutiveLosses := 0
      consecutiveWins := 0
      totalBets := 0
      totalWins := 0
      pausedRounds := 0 }
  match v with
  | .martingale p => { base with currentBet := p.baseBet }
  | .antiMartingale p => { base with currentBet := p.baseBet }
  | .patternBased _ => { base with waitCounter := 0 }
  | .adaptiveTarget p => { base with currentTarget := p.startTarget }
  | .skipLow _ => { base with roundsToSkip := 0 }
  | _ => base

/-- Percentage of the initial bankroll currently lost (the expression
`(self.initial_bankroll - self.bankroll) / self.initial_bankroll * 100`
opening every `decide`). -/
def lossPercent (st : StrategyState) : ℚ :=
  (st.initialBankroll - st.bankroll) / st.initialBankroll * 100

/-- Percentage of the initial bankroll currently gained. -/
def profitPercent (st : StrategyState) : ℚ :=
  (st.bankroll - st.initialBankroll) / st.initialBankroll * 100

/-- `FixedTargetStrategy.decide` (lines 119-137). -/
def FixedTargetStrategy.decide (p : FixedTargetParams) (st : StrategyState)
    (_hist : List RoundData) : BetDecision × StrategyState :=
  if lossPercent st ≥ p.stopLossPercent then
    ({ shouldBet := false, reason := "Stop loss triggered" }, st)
  else if profitPercent st ≥ p.takeProfitPercent then
    ({ shouldBet := false, reason := "Take profit triggered" }, st)
  else
    let betAmount := st.bankroll * (p.betPercent / 100)
    let betAmount := max p.minBet (min p.maxBet betAmount)
    if betAmount > st.bankroll then
      ({ shouldBet := false, reason := "Insufficient bankroll" }, st)
    else
      ({ shouldBet := true, betAmount := betAmount, cashoutTarget := p.target,
         reason := "Fixed target bet" }, st)

/-- `MartingaleStrategy.decide` (lines 176-192).  Note the in-`decide`
state mutations: the streak reset writes `current_bet` and
`consecutive_losses`, and the affordability fallback writes
`current_bet`. -/
def MartingaleStrategy.decide (p : MartingaleParams) (st : StrategyState)
    (_hist : List RoundData) : BetDecision × StrategyState :=
  if lossPercent st ≥ p.stopLossPercent then
    ({ shouldBet := false, reason := "Stop loss triggered" }, st)
  else
    let st := if st.consecutiveLosses ≥ p.maxConsecutiveLosses then
        { st with currentBet := p.baseBet, consecutiveLosses := 0 }
      else st
    if st.currentBet > st.bankroll then
      let st := { st with currentBet := p.baseBet }
      if st.currentBet > st.bankroll then
        ({ shouldBet := false, reason := "Insufficient bankroll" }, st)
      else
        ({ shouldBet := true, betAmount := st.currentBet, cashoutTarget := p.target,
           reason := "Martingale bet" }, st)
    else
      ({ shouldBet := true, betAmount := st.currentBet, cashoutTarget := p.target,
         reason := "Martingale bet" }, st)

/-- `AntiMartingaleStrategy.decide` (lines 242-260). -/
def AntiMartingaleStrategy.decide (p : AntiMartingaleParams) (st : StrategyState)
    (_hist : List RoundData) : BetDecision × StrategyState :=
  if lossPercent st ≥ p.stopLossPercent then
    ({ shouldBet := false, reason := "Stop loss triggered" }, st)
  else if profitPercent st ≥ p.takeProfitPercent then
    ({ shouldBet := false, reason := "Take profit triggered" }, st)
  else
    let st := if st.consecutiveWins ≥ p.maxConsecutiveWins then
        { st with currentBet := p.baseBet, consecutiveWins := 0 }
      else st
    if st.currentBet > st.bankroll then
      let st := { st with currentBet := p.baseBet }
      if st.currentBet > st.bankroll then
        ({ shouldBet := false, reason := "Insufficient bankroll" }, st)
      else
        ({ shouldBet := true, betAmount := st.currentBet, cashoutTarget := p.target,
           reason := "Anti-Martingale bet" }, st)
    else
      ({ shouldBet := true, betAmount := st.currentBet, cashoutTarget := p.target,
         reason := "Anti-Martingale bet" }, st)

/-- `PatternBasedStrategy._count_streak` (lines 312-320): number of
trailing rounds with multiplier below the threshold. -/
def PatternBasedStrategy.countStreak (threshold : ℚ) (rounds : List RoundData) : ℕ :=
  (rounds.reverse.takeWhile (fun r => decide (r.multiplier < threshold))).length

/-- `PatternBasedStrategy.decide` (lines 322-347).  The wait-counter
branches mutate `wait_counter` inside `decide`. -/
def PatternBasedStrategy.decide (p : PatternBasedParams) (st : StrategyState)
    (hist : List RoundData) : BetDecision × StrategyState :=
  if lossPercent st ≥ p.stopLossPercent then
    ({ shouldBet := false, reason := "Stop loss triggered" }, st)
  else if hist.length < p.minStreakToBet then
    ({ shouldBet := false, reason := "Not enough history" }, st)
  else if st.waitCounter > 0 then
    ({ shouldBet := false, reason := "Waiting after high" },
     { st with waitCounter := st.waitCounter - 1 })
  else
    let streakCheck : BetDecision × StrategyState :=
      let streak := PatternBasedStrategy.countStreak p.streakThreshold hist
      if streak ≥ p.minStreakToBet then
        ({ shouldBet := true, betAmount := st.bankroll * (p.betPercent / 100),
           cashoutTarget := p.targetAfterStreak,
           reason := "Streak of low rounds detected" }, st)
      else
        ({ shouldBet := false, reason := "Streak too short" }, st)
    match hist.getLast? with
    | some last =>
      if last.multiplier ≥ p.highThreshold then
        ({ shouldBet := false, reason := "Just had high multiplier, waiting" },
         { st with waitCounter := p.waitAfterHigh })
      else streakCheck
    | none => streakCheck

/-- `AdaptiveTargetStrategy.decide` (lines 391-401). -/
def AdaptiveTargetStrategy.decide (p : AdaptiveTargetParams) (st : StrategyState)
    (_hist : List RoundData) : BetDecision × StrategyState :=
  if lossPercent st ≥ p.stopLossPercent then
    ({ shouldBet := false, reason := "Stop loss triggered" }, st)
  else
    let betAmount := st.bankroll * (p.betPercent / 100)
    if betAmount > st.bankroll then
      ({ shouldBet := false, reason := "Insufficient bankroll" }, st)
    else
      ({ shouldBet := true, betAmount := betAmount, cashoutTarget := st.currentTarget,
         reason := "Adaptive target" }, st)

/-- `HybridMLStrategy._get_target_from_predictions` (lines 454-469). -/
def HybridMLStrategy.getTargetFromPredictions (p : HybridMLParams)
    (preds : MLPrediction) : ℚ :=
  if p.useAdaptiveTarget = false then p.baseTarget
  else if preds.probGt10x > 3/10 then 10
  else if preds.probGt5x > 7/20 then 5
  else if preds.probGt3x > 2/5 then 3
  else if preds.probGt2x > 1/2 then 2
  else p.baseTarget

/-- `HybridMLStrategy.decide` (lines 471-502). -/
def HybridMLStrategy.decide (p : HybridMLParams) (st : StrategyState)
    (hist : List RoundData) : BetDecision × StrategyState :=
  if lossPercent st ≥ p.stopLossPercent then
    ({ shouldBet := false, reason := "Stop loss triggered" }, st)
  else
    match hist.getLast? with
    | none => ({ shouldBet := false, reason := "No history" }, st)
    | some last =>
      match p.mlPredictions.lookup last.id with
      | none => ({ shouldBet := false, reason := "No ML prediction available" }, st)
      | some preds =>
        if preds.probEarlyCrash > p.earlyCrashMaxProb then
          ({ shouldBet := false, reason := "High early crash probability" }, st)
        else if preds.probGt2x < p.minConfidence then
          ({ shouldBet := false, reason := "Low confidence" }, st)
        else
          let betAmount := st.bankroll * (p.betPercent / 100)
          if betAmount > st.bankroll then
            ({ shouldBet := false, reason := "Insufficient bankroll" }, st)
          else
            ({ shouldBet := true, betAmount := betAmount,
               cashoutTarget := HybridMLStrategy.getTargetFromPredictions p preds,
               reason := "ML suggests target" }, st)

/-- `SafetyFirstStrategy.decide` (lines 538-551). -/
def SafetyFirstStrategy.decide (p : SafetyFirstParams) (st : StrategyState)
    (_hist : List RoundData) : BetDecision × StrategyState :=
  if lossPercent st ≥ p.stopLossPercent then
    ({ shouldBet := false, reason := "Stop loss triggered" }, st)
  else if profitPercent st ≥ p.takeProfitPercent then
    ({ shouldBet := false, reason := "Take profit triggered" }, st)
  else
    let totalBet := st.bankroll * (p.totalBetPercent / 100)
    if totalBet > st.bankroll then
      ({ shouldBet := false, reason := "Insufficient bankroll" }, st)
    else
      ({ shouldBet := true, betAmount := totalBet, cashoutTarget := p.profitTarget,
         reason := "Safety first bet" }, st)

/-- `SafetyFirstStrategy.simulate_round` (lines 553-575): net profit of
the two sub-bets. -/
def SafetyFirstStrategy.simulateRound (p : SafetyFirstParams)
    (betAmount mult : ℚ) : ℚ :=
  let safetyBet := betAmount * p.safetyBetRatio
  let profitBet := betAmount * (1 - p.safetyBetRatio)
  (if mult ≥ p.safetyTarget then safetyBet * (p.safetyTarget - 1) else -safetyBet)
    + (if mult ≥ p.profitTarget then profitBet * (p.profitTarget - 1) else -profitBet)

/-- `SkipLowStrategy.decide` (lines 614-631).  The skip branches mutate
`rounds_to_skip` inside `decide`. -/
def SkipLowStrategy.decide (p : SkipLowParams) (st : StrategyState)
    (hist : List RoundData) : BetDecision × StrategyState :=
  if lossPercent st ≥ p.stopLossPercent then
    ({ shouldBet := false, reason := "Stop loss triggered" }, st)
  else if st.roundsToSkip > 0 then
    ({ shouldBet := false, reason := "Skipping" },
     { st with roundsToSkip := st.roundsToSkip - 1 })
  else
    let normal : BetDecision × StrategyState :=
      let betAmount := st.bankroll * (p.betPercent / 100)
      if betAmount > st.bankroll then
        ({ shouldBet := false, reason := "Insufficient bankroll" }, st)
      else
        ({ shouldBet := true, betAmount := betAmount, cashoutTarget := p.target,
           reason := "Normal bet after clear" }, st)
    match hist.getLast? with
    | some last =>
      if last.multiplier < p.skipAfterBelow then
        ({ shouldBet := false, reason := "Low multiplier detected, starting skip" },
         { st with roundsToSkip := p.skipRounds })
      else normal
    | none => normal

/-- Dynamic dispatch of `strategy.decide(round_history)`. -/
def Strategy.decide (v : StrategyVariant) (st : StrategyState)
    (hist : List RoundData) : BetDecision × StrategyState :=
  match v with
  | .fixedTarget p => FixedTargetStrategy.decide p st hist
  | .martingale p => MartingaleStrategy.decide p st hist
  | .antiMartingale p => AntiMartingaleStrategy.decide p st hist
  | .patternBased p => PatternBasedStrategy.decide p st hist
  | .adaptiveTarget p => AdaptiveTargetStrategy.decide p st hist
  | .hybridML p => HybridMLStrategy.decide p st hist
  | .safetyFirst p => SafetyFirstStrategy.decide p st hist
  | .skipLow p => SkipLowStrategy.decide p st hist

/-- The trade record appended by `Strategy.on_round_result`
(strategies.py lines 80-88).  `bankroll` is the bankroll after applying
the profit. -/
def mkTrade (decision : BetDecision) (round : RoundData) (won : Bool)
    (profit : ℚ) (bankrollAfter : ℚ) : TradeRecord :=
  { roundId := round.id
    multiplier := round.multiplier
    betAmount := decision.betAmount
    target := decision.cashoutTarget
    won := won
    profit := profit
    bankroll := bankrollAfter }

/-- `Strategy.on_round_result` base implementation (lines 66-88). -/
def Strategy.baseOnRoundResult (decision : BetDecision) (round : RoundData)
    (won : Bool) (profit : ℚ) (st : StrategyState) : StrategyState :=
  if decision.shouldBet then
    let bankroll := st.bankroll + profit
    { st with
      totalBets := st.totalBets + 1
      bankroll := bankroll
      totalWins := if won then st.totalWins + 1 else st.totalWins
      consecutiveWins := if won then st.consecutiveWins + 1 else 0
      consecutiveLosses := if won then 0 else st.consecutiveLosses + 1
      history := st.history ++ [mkTrade decision round won profit bankroll] }
  else st

/-- `strategy.on_round_result`: the base update followed by the subclass
overrides (Martingale lines 194-201, AntiMartingale lines 262-269,
AdaptiveTarget lines 403-412; the other variants do not override it
beyond calling the base implementation). -/
def Strategy.onRoundResult (v : StrategyVariant) (decision : BetDecision)
    (round : RoundData) (won : Bool) (profit : ℚ) (st : StrategyState) :
    StrategyState :=
  let st := Strategy.baseOnRoundResult decision round won profit st
  match v with
  | .martingale p =>
    if decision.shouldBet then
      { st with currentBet := if won then p.baseBet else st.currentBet * p.multiplier }
    else st
  | .antiMartingale p =>
    if decision.shouldBet then
      { st with currentBet := if won then st.currentBet * p.multiplier else p.baseBet }
    else st
  | .adaptiveTarget p =>
    if decision.shouldBet then
      if won then
        if st.consecutiveWins ≥ p.resetAfterWins then
          { st with currentTarget := p.startTarget }
        else st
      else
        { st with currentTarget := max p.minTarget (st.currentTarget - p.targetDecrement) }
    else st
  | _ => st

/-! ## Metrics calculator (metrics.py) -/

/-- A Python float that may carry the signed-infinity sentinels
`float('inf')` / `float('-inf')` used by metrics.py and optimizer.py. -/
inductive XVal where
  | negInf
  | fin (q : ℚ)
  | posInf
deriving DecidableEq

/-- Comparison of `XVal`s, mirroring IEEE float comparison on
(finite values and the two infinities): -inf is below everything,
+inf above everything. -/
def XVal.le : XVal → XVal → Bool
  | .negInf, _ => true
  | _, .posInf => true
  | .fin a, .fin b => decide (a ≤ b)
  | .posInf, _ => false
  | .fin _, .negInf => false

/-- Symbolic value of the Sharpe / Sortino ratio computed at
metrics.py lines 159-173.  `ratio m v` stands for the real number
`(m / sqrt v) * sqrt 252` with `v > 0` the (population) variance used
as the denominator; the square roots are irrational, so the pair is
kept symbolically.  `zero` is the literal float `0` of the fallback
branches, `posInf` the `float('inf')` sentinel of the no-negative-
returns Sortino branch. -/
inductive RiskVal where
  | zero
  | posInf
  | ratio (mean variance : ℚ)
deriving DecidableEq

/-- `PerformanceMetrics` (metrics.py lines 10-48). -/
structure PerformanceMetrics where
  totalRounds : Int
  roundsBet : ℕ
  roundsWon : ℕ
  roundsLost : ℕ
  roundsSkipped : Int
  initialBankroll : ℚ
  finalBankroll : ℚ
  totalProfit : ℚ
  totalWagered : ℚ
  roiPercent : ℚ
  winRate : ℚ
  avgWin : ℚ
  avgLoss : ℚ
  profitFactor : XVal
  maxDrawdown : ℚ
  maxDrawdownPercent : ℚ
  maxConsecutiveLosses : ℕ
  maxConsecutiveWins : ℕ
  sharpeRatio : RiskVal
  sortinoRatio : RiskVal
  calmarRatio : ℚ
  expectancy : ℚ
  peakBankroll : ℚ
  lowestBankroll : ℚ
deriving DecidableEq

/-- `winning_trades` (metrics.py line 116): the strictly positive
profits of a trade log, in order. -/
def winningTrades (history : List TradeRecord) : List ℚ :=
  (history.map (·.profit)).filter (fun p => decide (p > 0))

/-- `losing_trades` (metrics.py line 117): the strictly negative
profits of a trade log, in order. -/
def losingTrades (history : List TradeRecord) : List ℚ :=
  (history.map (·.profit)).filter (fun p => decide (p < 0))

/-- `gross_profit` (metrics.py line 121). -/
def grossProfit (history : List TradeRecord) : ℚ := (winningTrades history).sum

/-- `gross_loss` (metrics.py line 122). -/
def grossLoss (history : List TradeRecord) : ℚ := |(losingTrades history).sum|

/-- The equity-curve walk of metrics.py lines 127-138: fold over the
curve carrying `(peak, max_dd, max_dd_pct)`; returns the final
`(max_dd, max_dd_pct)` (the percentage still as a fraction, before the
final `* 100`). -/
def drawdownScan : List ℚ → ℚ → ℚ → ℚ → ℚ × ℚ
  | [], _peak, maxDd, maxDdPct => (maxDd, maxDdPct)
  | e :: rest, peak, maxDd, maxDdPct =>
    let peak := if e > peak then e else peak
    let dd := peak - e
    let ddPct := if peak > 0 then dd / peak else 0
    if dd > maxDd then drawdownScan rest peak dd ddPct
    else drawdownScan rest peak maxDd maxDdPct

/-- Longest run of the value `target` in a boolean sequence, carrying
the current run length and the best so far — one half of the
consecutive-win/loss loop of metrics.py lines 141-154 (the source
computes both maxima in a single pass; the two passes are
observationally identical). -/
def maxStreak (target : Bool) : List Bool → ℕ → ℕ → ℕ
  | [], _cur, best => best
  | b :: rest, cur, best =>
    if b = target then maxStreak target rest (cur + 1) (max best (cur + 1))
    else maxStreak target rest 0 best

/-- Population mean of a list of rationals (`np.mean`); `0` on the
empty list. -/
def listMean (l : List ℚ) : ℚ := l.sum / l.length

/-- Population variance of a list of rationals (the square of
`np.std`); comparisons of `np.std` with `0` are modelled as the same
comparisons of the variance. -/
def listVariance (l : List ℚ) : ℚ :=
  (l.map (fun x => (x - listMean l) ^ 2)).sum / l.length

/-- `calculate_metrics` (metrics.py lines 51-207). -/
def calculateMetrics (history : List TradeRecord) (initialBankroll : ℚ)
    (totalRounds : Int) : PerformanceMetrics :=
  if history = [] then
    { totalRounds := totalRounds
      roundsBet := 0
      roundsWon := 0
      roundsLost := 0
      roundsSkipped := totalRounds
      initialBankroll := initialBankroll
      finalBankroll := initialBankroll
      totalProfit := 0
      totalWagered := 0
      roiPercent := 0
      winRate := 0
      avgWin := 0
      avgLoss := 0
      profitFactor := .fin 0
      maxDrawdown := 0
      maxDrawdownPercent := 0
      maxConsecutiveLosses := 0
      maxConsecutiveWins := 0
      sharpeRatio := .zero
      sortinoRatio := .zero
      calmarRatio := 0
      expectancy := 0
      peakBankroll := initialBankroll
      lowestBankroll := initialBankroll }
  else
    let bankrolls := history.map (·.bankroll)
    let betAmounts := history.map (·.betAmount)
    let wins := history.map (·.won)
    let roundsBet := history.length
    let roundsWon := wins.count true
    let roundsLost := roundsBet - roundsWon
    let roundsSkipped : Int := totalRounds - (roundsBet : Int)
    let finalBankroll := bankrolls.getLastD initialBankroll
    let totalProfit := finalBankroll - initialBankroll
    let totalWagered := betAmounts.sum
    let roiPercent := if initialBankroll > 0 then totalProfit / initialBankroll * 100 else 0
    let winRate := if roundsBet > 0 then (roundsWon : ℚ) / (roundsBet : ℚ) else 0
    let avgWin := if winningTrades history = [] then 0 else listMean (winningTrades history)
    let avgLoss := if losingTrades history = [] then 0 else |listMean (losingTrades history)|
    let profitFactor : XVal :=
      if grossLoss history > 0 then .fin (grossProfit history / grossLoss history)
      else if grossProfit history > 0 then .posInf
      else .fin 0
    let equityCurve := initialBankroll :: bankrolls
    let dd := drawdownScan equityCurve initialBankroll 0 0
    let returns := history.map (fun t => t.profit / t.betAmount)
    let negativeReturns := returns.filter (fun x => decide (x < 0))
    let sharpe : RiskVal :=
      if returns.length > 1 then
        if listVariance returns > 0 then .ratio (listMean returns) (listVariance returns)
        else .zero
      else .zero
    let sortino : RiskVal :=
      if returns.length > 1 then
        if negativeReturns.length > 0 then
          if listVariance negativeReturns > 0 then
            .ratio (listMean returns) (listVariance negativeReturns)
          else .zero
        else if listMean returns > 0 then .posInf
        else .zero
      else .zero
    let calmar := if dd.2 > 0 then roiPercent / 100 / dd.2 else 0
    let expectancy := winRate * avgWin - (1 - winRate) * avgLoss
    { totalRounds := totalRounds
      roundsBet := roundsBet
      roundsWon := roundsWon
      roundsLost := roundsLost
      roundsSkipped := roundsSkipped
      initialBankroll := initialBankroll
      finalBankroll := finalBankroll
      totalProfit := totalProfit
      totalWagered := totalWagered
      roiPercent := roiPercent
      winRate := winRate
      avgWin := avgWin
      avgLoss := avgLoss
      profitFactor := profitFactor
      maxDrawdown := dd.1
      maxDrawdownPercent := dd.2 * 100
      maxConsecutiveLosses := maxStreak false wins 0 0
      maxConsecutiveWins := maxStreak true wins 0 0
      sharpeRatio := sharpe
      sortinoRatio := sortino
      calmarRatio := calmar
      expectancy := expectancy
      peakBankroll := equityCurve.foldl max initialBankroll
      lowestBankroll := equityCurve.foldl min initialBankroll }

/-! ## Simulation engine (engine.py) -/

/-- `BacktestConfig` (engine.py lines 16-23); `verbose` only controls
printing and is omitted. -/
structure BacktestConfig where
  initialBankroll : ℚ := 1000
  startRound : Option Int := none
  endRound : Option Int := none
  warmupRounds : ℕ := 100
deriving DecidableEq

/-- The round filtering of `run_backtest` (engine.py lines 107-118):
keep rounds inside the id bounds, then drop the warmup count from the
front. -/
def roundsToTest (cfg : BacktestConfig) (rounds : List RoundData) : List RoundData :=
  let r1 := match cfg.startRound with
    | none => rounds
    | some s => rounds.filter (fun r => decide (s ≤ r.id))
  let r2 := match cfg.endRound with
    | none => r1
    | some e => r1.filter (fun r => decide (r.id ≤ e))
  if cfg.warmupRounds > 0 then r2.drop cfg.warmupRounds else r2

/-- Outcome resolution of one placed bet (engine.py lines 133-143):
`SafetyFirstStrategy` resolves through `simulate_round`, every other
variant through the generic single cash-out rule. -/
def resolveBet (v : StrategyVariant) (d : BetDecision) (r : RoundData) : Bool × ℚ :=
  match v with
  | .safetyFirst p =>
    let profit := SafetyFirstStrategy.simulateRound p d.betAmount r.multiplier
    (decide (profit > 0), profit)
  | _ =>
    if r.multiplier ≥ d.cashoutTarget then (true, d.betAmount * (d.cashoutTarget - 1))
    else (false, -d.betAmount)

/-- The body of one iteration of the backtest loop (engine.py lines
126-146): call `decide` on the history, and if it bets, resolve the bet
and feed the result back through `on_round_result`. -/
def engineStep (v : StrategyVariant) (st : StrategyState) (hist : List RoundData)
    (r : RoundData) : StrategyState :=
  let d := (Strategy.decide v st hist).1
  let st1 := (Strategy.decide v st hist).2
  if d.shouldBet then
    Strategy.onRoundResult v d r (resolveBet v d r).1 (resolveBet v d r).2 st1
  else st1

/-- One observable step of the loop: the history slice handed to
`decide`, the round being processed, the decision made, and the
strategy's bankroll at the end of the iteration (the value the
bankruptcy check at engine.py line 154 reads). -/
structure StepLog where
  historyArg : List RoundData
  round : RoundData
  decision : BetDecision
  bankrollAfter : ℚ
deriving DecidableEq

/-- The backtest loop (engine.py lines 124-157): iterate the filtered
rounds in order, handing `decide` the already-processed prefix
(`rounds_to_test[:i]`, threaded here as `hist`); stop as soon as the
bankroll is ≤ 0 at the end of an iteration.  Returns the final strategy
state together with the log of processed iterations. -/
def runLoop (v : StrategyVariant) :
    StrategyState → List RoundData → List RoundData → StrategyState × List StepLog
  | st, _, [] => (st, [])
  | st, hist, r :: rest =>
    let st2 := engineStep v st hist r
    let entry : StepLog := ⟨hist, r, (Strategy.decide v st hist).1, st2.bankroll⟩
    if st2.bankroll ≤ 0 then (st2, [entry])
    else
      ((runLoop v st2 (hist ++ [r]) rest).1, entry :: (runLoop v st2 (hist ++ [r]) rest).2)

/-- The state preparation of `run_backtest` (engine.py lines 102-105):
reset the strategy, then overwrite both bankroll fields with the
configured initial bankroll. -/
def setupState (v : StrategyVariant) (st : StrategyState) (cfg : BacktestConfig) :
    StrategyState :=
  let st := Strategy.reset v st
  { st with bankroll := cfg.initialBankroll, initialBankroll := cfg.initialBankroll }

/-- Final state and step log of `run_backtest` applied to the engine's
loaded `rounds`. -/
def runBacktestCore (v : StrategyVariant) (st : StrategyState) (cfg : BacktestConfig)
    (rounds : List RoundData) : StrategyState × List StepLog :=
  let st := setupState v st cfg
  let rts := roundsToTest cfg rounds
  if rts = [] then (st, []) else runLoop v st [] rts

/-- The step log of `run_backtest`: one entry per processed round. -/
def runBacktestTrace (v : StrategyVariant) (st : StrategyState) (cfg : BacktestConfig)
    (rounds : List RoundData) : List StepLog :=
  (runBacktestCore v st cfg rounds).2

/-- `BacktestEngine.run_backtest` (engine.py lines 84-166): returns the
metrics report (empty filtered range short-circuits to a zero-trade
report with `total_rounds = 0`, lines 120-122). -/
def runBacktest (v : StrategyVariant) (st : StrategyState) (cfg : BacktestConfig)
    (rounds : List RoundData) : PerformanceMetrics :=
  let rts := roundsToTest cfg rounds
  if rts = [] then calculateMetrics [] cfg.initialBankroll 0
  else calculateMetrics (runBacktestCore v st cfg rounds).1.history
    cfg.initialBankroll (rts.length : Int)

/-! ## Optimizer (optimizer.py) -/

/-- `itertools.product` over a list of value lists, in Python's
enumeration order (leftmost parameter varies slowest) — optimizer.py
line 46. -/
def cartesianProduct {α : Type} : List (List α) → List (List α)
  | [] => [[]]
  | xs :: rest => xs.flatMap (fun x => (cartesianProduct rest).map (fun c => x :: c))

/-- `grid_search` (optimizer.py lines 16-90) with the dynamic parts
abstracted: `run` models `strategy_class(**params)` followed by
`engine.run_backtest` (returning `none` when that raises, which the
source logs and skips), and `key` models `getattr(metrics, metric, 0)`.
The successful `(params, metrics)` pairs are sorted descending by the
key; Python's `list.sort(key=..., reverse=True)` is a stable descending
sort, modelled by `List.mergeSort` with the reversed comparison. -/
def gridSearch {α M : Type} (paramValues : List (List α)) (run : List α → Option M)
    (key : M → XVal) : List (List α × M) :=
  let combinations := cartesianProduct paramValues
  let results := combinations.filterMap (fun c => (run c).map (fun m => (c, m)))
  results.mergeSort (fun a b => XVal.le (key b.2) (key a.2))

/-! ## Monte-Carlo sampling (engine.py lines 249-342)

The source samples with `np.random.choice`, the module-level numpy
generator.  That generator is modelled abstractly as an infinite stream
of naturals plus a cursor counting how many stream values have been
consumed; one call `np.random.choice(n, size=k, replace=True)` consumes
`k` values, each reduced modulo `n`.  `monte_carlo_simulation` never
calls any seeding function, so the cursor is simply threaded from one
draw to the next and from one execution to the next. -/

/-- The module-level numpy random generator: a fixed stream and the
consumption cursor. -/
structure GlobalRng where
  stream : ℕ → ℕ
  pos : ℕ

/-- One call of `np.random.choice(n, size=k, replace=True)` (engine.py
lines 285-289). -/
def npRandomChoice (rng : GlobalRng) (n k : ℕ) : List ℕ × GlobalRng :=
  ((List.range k).map (fun j => rng.stream (rng.pos + j) % n),
   ⟨rng.stream, rng.pos + k⟩)

/-- The index draws of `monte_carlo_simulation` (engine.py lines
283-290): one `np.random.choice` call per simulation, with no seeding
between simulations or before the first one. -/
def monteCarloSampledIndices (rng : GlobalRng) :
    ℕ → ℕ → ℕ → List (List ℕ) × GlobalRng
  | 0, _poolSize, _sampleSize => ([], rng)
  | nSims + 1, poolSize, sampleSize =>
    let draw := npRandomChoice rng poolSize sampleSize
    let rest := monteCarloSampledIndices draw.2 nSims poolSize sampleSize
    (draw.1 :: rest.1, rest.2)

/-! ## Concrete instances used by witnesses and counterexamples -/

/-- A round with the given id and multiplier (the other columns do not
influence any strategy or engine decision). -/
def mkRound (i : Int) (m : ℚ) : RoundData :=
  { id := i, multiplier := m, betCount := 0, totalBet := 0, totalWin := 0, createdAt := "" }

/-! ## Helper lemmas about `decide` and `on_round_result` -/

/-- No `decide` method writes the bankroll, the trade log, the bet/win
totals or `paused_rounds`; the only attributes any variant's `decide`
mutates are its progression counters (`current_bet`,
`consecutive_losses`/`consecutive_wins` streak resets, `wait_counter`,
`rounds_to_skip`). -/
theorem decide_preserves_frame (v : StrategyVariant) (st : StrategyState)
    (hist : List RoundData) :
    (Strategy.decide v st hist).2.bankroll = st.bankroll ∧
    (Strategy.decide v st hist).2.initialBankroll = st.initialBankroll ∧
    (Strategy.decide v st hist).2.history = st.history ∧
    (Strategy.decide v st hist).2.totalBets = st.totalBets ∧
    (Strategy.decide v st hist).2.totalWins = st.totalWins ∧
    (Strategy.decide v st hist).2.pausedRounds = st.pausedRounds := by
  cases v <;>
    simp only [Strategy.decide, FixedTargetStrategy.decide, MartingaleStrategy.decide,
      AntiMartingaleStrategy.decide, PatternBasedStrategy.decide,
      AdaptiveTargetStrategy.decide, HybridMLStrategy.decide, SafetyFirstStrategy.decide,
      SkipLowStrategy.decide] <;>
    (repeat' split) <;> simp

/-- `decide` never makes both streak counters nonzero: it either leaves
them unchanged or zeroes one of them. -/
theorem decide_preserves_counters (v : StrategyVariant) (st : StrategyState)
    (hist : List RoundData)
    (h : st.consecutiveWins = 0 ∨ st.consecutiveLosses = 0) :
    (Strategy.decide v st hist).2.consecutiveWins = 0 ∨
    (Strategy.decide v st hist).2.consecutiveLosses = 0 := by
  cases v <;>
    simp only [Strategy.decide, FixedTargetStrategy.decide, MartingaleStrategy.decide,
      AntiMartingaleStrategy.decide, PatternBasedStrategy.decide,
      AdaptiveTargetStrategy.decide, HybridMLStrategy.decide, SafetyFirstStrategy.decide,
      SkipLowStrategy.decide] <;>
    (repeat' split) <;> simp_all

/-- Effect of `on_round_result` on a should-bet decision: bankroll moves
by exactly `profit`, exactly one trade record is appended, `total_bets`
increments, and one of the streak counters is zeroed. -/
theorem onRoundResult_effect (v : StrategyVariant) (d : BetDecision) (r : RoundData)
    (won : Bool) (profit : ℚ) (st : StrategyState) (h : d.shouldBet = true) :
    (Strategy.onRoundResult v d r won profit st).bankroll = st.bankroll + profit ∧
    (Strategy.onRoundResult v d r won profit st).history
      = st.history ++ [mkTrade d r won profit (st.bankroll + profit)] ∧
    (Strategy.onRoundResult v d r won profit st).totalBets = st.totalBets + 1 ∧
    ((Strategy.onRoundResult v d r won profit st).consecutiveWins = 0 ∨
      (Strategy.onRoundResult v d r won profit st).consecutiveLosses = 0) := by
  cases v <;>
    simp only [Strategy.onRoundResult, Strategy.baseOnRoundResult, h, if_true] <;>
    (repeat' split) <;> simp_all

/-- When the decision says to bet, the engine iteration is exactly one
`on_round_result` call on the post-`decide` state. -/
theorem engineStep_bet (v : StrategyVariant) (st : StrategyState)
    (hist : List RoundData) (r : RoundData)
    (h : (Strategy.decide v st hist).1.shouldBet = true) :
    engineStep v st hist r
      = Strategy.onRoundResult v (Strategy.decide v st hist).1 r
          (resolveBet v (Strategy.decide v st hist).1 r).1
          (resolveBet v (Strategy.decide v st hist).1 r).2
          (Strategy.decide v st hist).2 ∧
    (engineStep v st hist r).bankroll
      = st.bankroll + (resolveBet v (Strategy.decide v st hist).1 r).2 ∧
    (engineStep v st hist r).history
      = st.history ++ [mkTrade (Strategy.decide v st hist).1 r
          (resolveBet v (Strategy.decide v st hist).1 r).1
          (resolveBet v (Strategy.decide v st hist).1 r).2
          (st.bankroll + (resolveBet v (Strategy.decide v st hist).1 r).2)] ∧
    (engineStep v st hist r).totalBets = st.totalBets + 1 := by
  have hstep : engineStep v st hist r
      = Strategy.onRoundResult v (Strategy.decide v st hist).1 r
          (resolveBet v (Strategy.decide v st hist).1 r).1
          (resolveBet v (Strategy.decide v st hist).1 r).2
          (Strategy.decide v st hist).2 := by
    simp [engineStep, h]
  obtain ⟨hf1, hf2, hf3, hf4, hf5, hf6⟩ := decide_preserves_frame v st hist
  obtain ⟨he1, he2, he3, he4⟩ := onRoundResult_effect v (Strategy.decide v st hist).1 r
    (resolveBet v (Strategy.decide v st hist).1 r).1
    (resolveBet v (Strategy.decide v st hist).1 r).2
    (Strategy.decide v st hist).2 h
  refine ⟨hstep, ?_, ?_, ?_⟩
  · rw [hstep, he1, hf1]
  · rw [hstep, he2, hf3, hf1]
  · rw [hstep, he3, hf4]

/-- When the decision says not to bet, the engine iteration performs no
state update beyond `decide` itself. -/
theorem engineStep_noBet (v : StrategyVariant) (st : StrategyState)
    (hist : List RoundData) (r : RoundData)
    (h : (Strategy.decide v st hist).1.shouldBet = false) :
    engineStep v st hist r = (Strategy.decide v st hist).2 := by
  simp [engineStep, h]

/-- The state invariant of §3 of the design: trade-log length equals
`total_bets`, and the two streak counters are never both nonzero. -/
def StratInv (st : StrategyState) : Prop :=
  st.history.length = st.totalBets ∧
  (st.consecutiveWins = 0 ∨ st.consecutiveLosses = 0)

/-- One engine iteration preserves the invariant. -/
theorem engineStep_inv (v : StrategyVariant) (st : StrategyState)
    (hist : List RoundData) (r : RoundData) (h : StratInv st) :
    StratInv (engineStep v st hist r) := by
  obtain ⟨hlen, hctr⟩ := h
  obtain ⟨hf1, hf2, hf3, hf4, hf5, hf6⟩ := decide_preserves_frame v st hist
  by_cases hb : (Strategy.decide v st hist).1.shouldBet = true
  · obtain ⟨hs1, hs2, hs3, hs4⟩ := engineStep_bet v st hist r hb
    have hctr' := onRoundResult_effect v (Strategy.decide v st hist).1 r
      (resolveBet v (Strategy.decide v st hist).1 r).1
      (resolveBet v (Strategy.decide v st hist).1 r).2
      (Strategy.decide v st hist).2 hb
    constructor
    · rw [hs3, hs4, List.length_append, hlen]; simp
    · rw [hs1]; exact hctr'.2.2.2
  · have hb' : (Strategy.decide v st hist).1.shouldBet = false := by
      simpa using hb
    rw [engineStep_noBet v st hist r hb']
    exact ⟨by rw [hf3, hf4, hlen], decide_preserves_counters v st hist hctr⟩

/-- The backtest loop preserves the invariant. -/
theorem runLoop_inv (v : StrategyVariant) :
    ∀ (l : List RoundData) (st : StrategyState) (hist : List RoundData),
      StratInv st → StratInv (runLoop v st hist l).1 := by
  intro l
  induction l with
  | nil => intro st hist h; simpa [runLoop] using h
  | cons r rest ih =>
    intro st hist h
    have hstep := engineStep_inv v st hist r h
    simp only [runLoop]
    split
    · exact hstep
    · exact ih (engineStep v st hist r) (hist ++ [r]) hstep

/-- `reset` followed by the engine's bankroll overwrite yields a state
satisfying the invariant (empty log, zeroed counters). -/
theorem setupState_inv (v : StrategyVariant) (st : StrategyState)
    (cfg : BacktestConfig) : StratInv (setupState v st cfg) := by
  cases v <;> simp [setupState, Strategy.reset, StratInv]

/-- Every step log entry records the history slice actually handed to
`decide` (the already-processed prefix) and the round processed at that
index. -/
theorem runLoop_trace_entry (v : StrategyVariant) :
    ∀ (l : List RoundData) (st : StrategyState) (hist : List RoundData)
      (k : ℕ) (e : StepLog),
      (runLoop v st hist l).2[k]? = some e →
      e.historyArg = hist ++ l.take k ∧ l[k]? = some e.round := by
  intro l
  induction l with
  | nil => intro st hist k e h; simp [runLoop] at h
  | cons r rest ih =>
    intro st hist k e h
    simp only [runLoop] at h
    by_cases hruin : (engineStep v st hist r).bankroll ≤ 0
    · rw [if_pos hruin] at h
      match k with
      | 0 =>
        simp only [List.getElem?_cons_zero, Option.some.injEq] at h
        subst h
        simp
      | k + 1 => simp at h
    · rw [if_neg hruin] at h
      match k with
      | 0 =>
        simp only [List.getElem?_cons_zero, Option.some.injEq] at h
        subst h
        simp
      | k + 1 =>
        simp only [List.getElem?_cons_succ] at h
        obtain ⟨h1, h2⟩ := ih (engineStep v st hist r) (hist ++ [r]) k e h
        refine ⟨?_, by simpa using h2⟩
        rw [h1, List.take_succ_cons]
        simp

/-- A step whose end-of-iteration bankroll is ≤ 0 is the last step of
the loop: the bankruptcy check at engine.py line 154 breaks out. -/
theorem runLoop_ruin_last (v : StrategyVariant) :
    ∀ (l : List RoundData) (st : StrategyState) (hist : List RoundData)
      (k : ℕ) (e : StepLog),
      (runLoop v st hist l).2[k]? = some e → e.bankrollAfter ≤ 0 →
      (runLoop v st hist l).2.length = k + 1 := by
  intro l
  induction l with
  | nil => intro st hist k e h _; simp [runLoop] at h
  | cons r rest ih =>
    intro st hist k e h hruin0
    simp only [runLoop] at h ⊢
    by_cases hruin : (engineStep v st hist r).bankroll ≤ 0
    · rw [if_pos hruin] at h ⊢
      match k with
      | 0 => simp
      | k + 1 => simp at h
    · rw [if_neg hruin] at h ⊢
      match k with
      | 0 =>
        simp only [List.getElem?_cons_zero, Option.some.injEq] at h
        subst h
        simp at hruin0
        exact absurd hruin0 hruin
      | k + 1 =>
        simp only [List.getElem?_cons_succ] at h
        simp only [List.length_cons]
        rw [ih (engineStep v st hist r) (hist ++ [r]) k e h hruin0]

/-- The loop processes at most the rounds it is given. -/
theorem runLoop_trace_length_le (v : StrategyVariant) :
    ∀ (l : List RoundData) (st : StrategyState) (hist : List RoundData),
      (runLoop v st hist l).2.length ≤ l.length := by
  intro l
  induction l with
  | nil => intro st hist; simp [runLoop]
  | cons r rest ih =>
    intro st hist
    simp only [runLoop]
    split
    · simp
    · simpa using ih (engineStep v st hist r) (hist ++ [r])

/-- Each processed round appends at most one trade record. -/
theorem runLoop_history_length_le (v : StrategyVariant) :
    ∀ (l : List RoundData) (st : StrategyState) (hist : List RoundData),
      (runLoop v st hist l).1.history.length
        ≤ st.history.length + (runLoop v st hist l).2.length := by
  intro l
  induction l with
  | nil => intro st hist; simp [runLoop]
  | cons r rest ih =>
    intro st hist
    have hstep : (engineStep v st hist r).history.length ≤ st.history.length + 1 := by
      obtain ⟨hf1, hf2, hf3, hf4, hf5, hf6⟩ := decide_preserves_frame v st hist
      by_cases hb : (Strategy.decide v st hist).1.shouldBet = true
      · obtain ⟨-, -, hs3, -⟩ := engineStep_bet v st hist r hb
        simp [hs3]
      · have hb' : (Strategy.decide v st hist).1.shouldBet = false := by simpa using hb
        rw [engineStep_noBet v st hist r hb', hf3]
        omega
    simp only [runLoop]
    split
    · simpa using hstep
    · have := ih (engineStep v st hist r) (hist ++ [r])
      simp only [List.length_cons]
      omega

/-- `calculate_metrics` reports `rounds_bet = len(history)` (zero for
the empty log). -/
theorem calculateMetrics_roundsBet (h : List TradeRecord) (ib : ℚ) (t : Int) :
    (calculateMetrics h ib t).roundsBet = h.length := by
  by_cases hh : h = [] <;> simp [calculateMetrics, hh]

/-- Projection of the profit-factor branch of `calculate_metrics` for a
nonempty trade log. -/
theorem calculateMetrics_profitFactor (h : List TradeRecord) (ib : ℚ) (t : Int)
    (hne : h ≠ []) :
    (calculateMetrics h ib t).profitFactor =
      if grossLoss h > 0 then .fin (grossProfit h / grossLoss h)
      else if grossProfit h > 0 then .posInf
      else .fin 0 := by
  simp [calculateMetrics, hne]

/-- After `reset` and the engine's overwrite, the prepared state is a
function of the variant and the configuration alone: the bankroll the
strategy object was constructed with has been erased. -/
theorem setupState_initState (v : StrategyVariant) (cfg : BacktestConfig) (b : ℚ) :
    setupState v (initState v b) cfg = setupState v (initState v 0) cfg := by
  cases v <;> rfl

/-- `XVal.le` is reflexive. -/
theorem XVal.leRefl (a : XVal) : XVal.le a a = true := by
  cases a <;> simp [XVal.le]

/-- `XVal.le` is transitive. -/
theorem XVal.leTrans {a b c : XVal} (h1 : XVal.le a b = true)
    (h2 : XVal.le b c = true) : XVal.le a c = true := by
  cases a <;> cases b <;> cases c <;> simp_all [XVal.le]
  exact h1.trans h2

/-- `XVal.le` is total. -/
theorem XVal.leTotal (a b : XVal) : (XVal.le a b || XVal.le b a) = true := by
  cases a <;> cases b <;> simp [XVal.le, le_total]

/-! ## Claim theorems -/

/-- C6: for every trade log, the computed profit_factor equals
gross_profit/gross_loss when gross_loss > 0, equals the +infinity
sentinel when gross_loss = 0 and gross_profit > 0, and equals 0
whenever gross_profit = 0 (including the empty-log short-circuit). -/
theorem C6_profit_factor_convention (h : List TradeRecord) (ib : ℚ) (t : Int) :
    (grossLoss h > 0 →
      (calculateMetrics h ib t).profitFactor = XVal.fin (grossProfit h / grossLoss h)) ∧
    (grossLoss h = 0 → grossProfit h > 0 →
      (calculateMetrics h ib t).profitFactor = XVal.posInf) ∧
    (grossProfit h = 0 →
      (calculateMetrics h ib t).profitFactor = XVal.fin 0) := by
  by_cases hne : h = []
  · subst hne
    refine ⟨?_, ?_, ?_⟩
    · intro hgl; exfalso; simp [grossLoss, losingTrades] at hgl
    · intro _ hgp; exfalso; simp [grossProfit, winningTrades] at hgp
    · intro _; simp [calculateMetrics]
  · refine ⟨?_, ?_, ?_⟩
    · intro hgl
      rw [calculateMetrics_profitFactor h ib t hne, if_pos hgl]
    · intro hgl hgp
      rw [calculateMetrics_profitFactor h ib t hne, if_neg (by simp [hgl]), if_pos hgp]
    · intro hgp
      rw [calculateMetrics_profitFactor h ib t hne]
      by_cases hgl : grossLoss h > 0
      · rw [if_pos hgl, hgp, zero_div]
      · rw [if_neg hgl, if_neg (by simp [hgp])]

/-- Witness for C6 at a concrete log holding a single losing trade:
gross profit is zero, so profit_factor is the float 0. -/
theorem C6_profit_factor_convention_witness :
    grossProfit [{ roundId := 1, multiplier := 3/2, betAmount := 10, target := 2,
                   won := false, profit := -10, bankroll := 90 }] = 0 ∧
    (calculateMetrics [{ roundId := 1, multiplier := 3/2, betAmount := 10, target := 2,
                         won := false, profit := -10, bankroll := 90 }] 100 1).profitFactor
      = XVal.fin 0 :=
  ⟨by norm_num [grossProfit, winningTrades],
   (C6_profit_factor_convention
     [{ roundId := 1, multiplier := 3/2, betAmount := 10, target := 2,
        won := false, profit := -10, bankroll := 90 }] 100 1).2.2
     (by norm_num [grossProfit, winningTrades])⟩

/-- C8 (counterexample): `decide` is not pure.  `SkipLowStrategy.decide`
on a fresh default strategy whose last seen multiplier is 1.0 (below
`skip_after_below`) writes `rounds_to_skip := skip_rounds`, so the state
is not left as it was. -/
theorem C8_decide_mutates_state :
    (Strategy.decide (.skipLow {}) (initState (.skipLow {}) 100) [mkRound 1 1]).2
      ≠ initState (.skipLow {}) 100 := by
  norm_num [Strategy.decide, SkipLowStrategy.decide, initState, lossPercent, mkRound]

/-- C8 (amended): `decide` is a deterministic function of
(state, history) that never modifies the bankroll, the initial
bankroll, the trade log, `total_bets`, `total_wins` or `paused_rounds`;
however, the Martingale, Anti-Martingale, Pattern-based and Skip-low
variants may update their progression counters (`current_bet`, streak
resets, `wait_counter`, `rounds_to_skip`) inside `decide`, so a second
identical call need not leave the state intact or return the same
decision. -/
theorem C8_decide_frame_amended (v : StrategyVariant) (st : StrategyState)
    (hist : List RoundData) :
    (Strategy.decide v st hist).2.bankroll = st.bankroll ∧
    (Strategy.decide v st hist).2.initialBankroll = st.initialBankroll ∧
    (Strategy.decide v st hist).2.history = st.history ∧
    (Strategy.decide v st hist).2.totalBets = st.totalBets ∧
    (Strategy.decide v st hist).2.totalWins = st.totalWins ∧
    (Strategy.decide v st hist).2.pausedRounds = st.pausedRounds :=
  decide_preserves_frame v st hist

/-- C9: `monte_carlo_simulation` never seeds its draws — every
`np.random.choice` call consumes the ambient module-level stream where
the previous call left it.  Concretely, two executions of the sampling
loop (same parameters, same underlying stream) produce different index
draws, because the second execution starts at the cursor the first one
left behind; with per-resample seeding they would be identical. -/
theorem C9_monte_carlo_draws_not_reseeded :
    (monteCarloSampledIndices ⟨id, 0⟩ 2 5 3).1
      ≠ (monteCarloSampledIndices (monteCarloSampledIndices ⟨id, 0⟩ 2 5 3).2 2 5 3).1 := by
  decide

/-- C10: `run_backtest` overwrites both bankroll attributes with the
configured initial bankroll right after `reset`, so the whole run — and
hence the returned metrics — does not depend on the bankroll the
strategy instance was constructed with. -/
theorem C10_config_bankroll_overrides_constructor (v : StrategyVariant)
    (st : StrategyState) (cfg : BacktestConfig) (rounds : List RoundData)
    (b1 b2 : ℚ) :
    (setupState v st cfg).bankroll = cfg.initialBankroll ∧
    (setupState v st cfg).initialBankroll = cfg.initialBankroll ∧
    runBacktest v (initState v b1) cfg rounds
      = runBacktest v (initState v b2) cfg rounds := by
  refine ⟨rfl, rfl, ?_⟩
  unfold runBacktest runBacktestCore
  rw [setupState_initState v cfg b1, setupState_initState v cfg b2]

/-- C5: the metrics calculator is total on the empty trade log — for
every initial bankroll and round count it yields the zero/initial-value
report (final_bankroll = initial, zero profit and ratios, all rounds
skipped) — and a run whose filtered range is empty returns exactly the
empty-log report built with total_rounds = 0. -/
theorem C5_empty_trade_log_metrics (ib : ℚ) (t : Int) (v : StrategyVariant)
    (st0 : StrategyState) (cfg : BacktestConfig) (rounds : List RoundData)
    (hempty : roundsToTest cfg rounds = []) :
    ((calculateMetrics [] ib t).finalBankroll = ib ∧
     (calculateMetrics [] ib t).totalProfit = 0 ∧
     (calculateMetrics [] ib t).roiPercent = 0 ∧
     (calculateMetrics [] ib t).roundsBet = 0 ∧
     (calculateMetrics [] ib t).roundsSkipped = t ∧
     (calculateMetrics [] ib t).totalWagered = 0 ∧
     (calculateMetrics [] ib t).winRate = 0 ∧
     (calculateMetrics [] ib t).avgWin = 0 ∧
     (calculateMetrics [] ib t).avgLoss = 0 ∧
     (calculateMetrics [] ib t).profitFactor = XVal.fin 0 ∧
     (calculateMetrics [] ib t).maxDrawdown = 0 ∧
     (calculateMetrics [] ib t).maxDrawdownPercent = 0 ∧
     (calculateMetrics [] ib t).sharpeRatio = RiskVal.zero ∧
     (calculateMetrics [] ib t).sortinoRatio = RiskVal.zero ∧
     (calculateMetrics [] ib t).calmarRatio = 0 ∧
     (calculateMetrics [] ib t).expectancy = 0) ∧
    runBacktest v st0 cfg rounds = calculateMetrics [] cfg.initialBankroll 0 := by
  constructor
  · simp [calculateMetrics]
  · simp [runBacktest, hempty]

/-- Witness for C5: the default configuration's 100 warmup rounds empty
a one-round range, and the run returns the empty-log report. -/
theorem C5_empty_trade_log_metrics_witness :
    roundsToTest {} [mkRound 1 3] = [] ∧
    runBacktest (.fixedTarget {}) (initState (.fixedTarget {}) 7) {} [mkRound 1 3]
      = calculateMetrics [] ({} : BacktestConfig).initialBankroll 0 :=
  ⟨rfl, (C5_empty_trade_log_metrics 1 0 (.fixedTarget {}) (initState (.fixedTarget {}) 7)
    {} [mkRound 1 3] rfl).2⟩

/-- C2: no-lookahead — the decision the loop produces at index `i` is a
function of the rounds strictly before `i` (and the strategy state the
loop started from) alone: two round sequences agreeing on indices
`0..i-1` produce the same decision at index `i`, whatever round `i`
itself and all later rounds contain. -/
theorem C2_no_lookahead (v : StrategyVariant) (i : ℕ) (st : StrategyState)
    (hist : List RoundData) (l1 l2 : List RoundData)
    (hpre : l1.take i = l2.take i) (h1 : i < l1.length) (h2 : i < l2.length) :
    ((runLoop v st hist l1).2[i]?).map StepLog.decision
      = ((runLoop v st hist l2).2[i]?).map StepLog.decision := by
  induction i generalizing st hist l1 l2 with
  | zero =>
    cases l1 with
    | nil => simp at h1
    | cons r1 t1 =>
      cases l2 with
      | nil => simp at h2
      | cons r2 t2 =>
        simp only [runLoop]
        by_cases hc1 : (engineStep v st hist r1).bankroll ≤ 0 <;>
          by_cases hc2 : (engineStep v st hist r2).bankroll ≤ 0 <;>
            simp [hc1, hc2]
  | succ i ih =>
    cases l1 with
    | nil => simp at h1
    | cons r1 t1 =>
      cases l2 with
      | nil => simp at h2
      | cons r2 t2 =>
        have hr : r1 = r2 := by
          have h0 := congrArg (fun l => l[0]?) hpre
          simpa using h0
        subst hr
        have hpre' : t1.take i = t2.take i := by
          simpa using hpre
        simp only [runLoop]
        by_cases hruin : (engineStep v st hist r1).bankroll ≤ 0
        · simp [hruin]
        · simp only [if_neg hruin, List.getElem?_cons_succ]
          exact ih (engineStep v st hist r1) (hist ++ [r1]) t1 t2 hpre'
            (by simpa using h1) (by simpa using h2)

/-- Witness for C2: two two-round sequences sharing their first round
but differing in the second produce the same decision at index 1. -/
theorem C2_no_lookahead_witness :
    ([mkRound 1 3, mkRound 2 (3/2)].take 1 = [mkRound 1 3, mkRound 2 5].take 1) ∧
    (1 < [mkRound 1 3, mkRound 2 (3/2)].length) ∧
    ((runLoop (.fixedTarget {}) (initState (.fixedTarget {}) 100) []
        [mkRound 1 3, mkRound 2 (3/2)]).2[1]?).map StepLog.decision
      = ((runLoop (.fixedTarget {}) (initState (.fixedTarget {}) 100) []
          [mkRound 1 3, mkRound 2 5]).2[1]?).map StepLog.decision :=
  ⟨rfl, by norm_num,
   C2_no_lookahead (.fixedTarget {}) 1 (initState (.fixedTarget {}) 100) []
     [mkRound 1 3, mkRound 2 (3/2)] [mkRound 1 3, mkRound 2 5]
     rfl (by norm_num) (by norm_num)⟩

/-- C1 (counterexample): with warmup_rounds = 1 over the two-round range
round 1, round 2, the engine slices the warmup round away before the
loop: the only decision made receives the empty history rather than the
window containing the warmup round that the claim requires. -/
theorem C1_warmup_excluded_from_history :
    (runBacktestTrace (.fixedTarget {}) (initState (.fixedTarget {}) 100)
        { initialBankroll := 100, warmupRounds := 1 } [mkRound 1 3, mkRound 2 3]).map
        StepLog.historyArg = [[]] ∧
    ([] : List RoundData) ≠ [mkRound 1 3] := by
  constructor
  · norm_num [runBacktestTrace, runBacktestCore, roundsToTest, setupState, Strategy.reset,
      runLoop, engineStep, Strategy.decide, FixedTargetStrategy.decide, lossPercent,
      profitPercent, initState, mkRound, resolveBet, Strategy.onRoundResult,
      Strategy.baseOnRoundResult, mkTrade, max_def, min_def]
  · simp

/-- C1 (amended): for every configuration with warmup_rounds = w > 0 the
w warmup rounds are dropped before the pass, not carried as history: the
i-th processed round is the i-th post-warmup round of the filtered
range, and the history handed to decide at step i is exactly the i
post-warmup rounds already processed, so no warmup round is offered a
bet decision and none appears in any history window. -/
theorem C1_warmup_dropped_amended (v : StrategyVariant) (st0 : StrategyState)
    (cfg : BacktestConfig) (rounds : List RoundData) (i : ℕ) (e : StepLog)
    (_hw : 0 < cfg.warmupRounds)
    (he : (runBacktestTrace v st0 cfg rounds)[i]? = some e) :
    e.historyArg = (roundsToTest cfg rounds).take i ∧
    (roundsToTest cfg rounds)[i]? = some e.round := by
  by_cases hrts : roundsToTest cfg rounds = []
  · exfalso
    rw [runBacktestTrace] at he
    simp [runBacktestCore, hrts] at he
  · have he' : (runLoop v (setupState v st0 cfg) [] (roundsToTest cfg rounds)).2[i]?
        = some e := by
      simpa [runBacktestTrace, runBacktestCore, hrts] using he
    simpa using
      runLoop_trace_entry v (roundsToTest cfg rounds) (setupState v st0 cfg) [] i e he'

/-- Witness for C1 (amended) on the concrete warmup-1 run: the single
processed step carries the empty history and the post-warmup round. -/
theorem C1_warmup_dropped_amended_witness :
    (0 < ({ initialBankroll := 100, warmupRounds := 1 } : BacktestConfig).warmupRounds) ∧
    (([] : List RoundData)
        = (roundsToTest { initialBankroll := 100, warmupRounds := 1 }
            [mkRound 1 3, mkRound 2 3]).take 0 ∧
      (roundsToTest { initialBankroll := 100, warmupRounds := 1 }
          [mkRound 1 3, mkRound 2 3])[0]? = some (mkRound 2 3)) :=
  ⟨by norm_num,
   C1_warmup_dropped_amended (.fixedTarget {}) (initState (.fixedTarget {}) 100)
     { initialBankroll := 100, warmupRounds := 1 } [mkRound 1 3, mkRound 2 3] 0
     { historyArg := [], round := mkRound 2 3,
       decision := { shouldBet := true, betAmount := 1, cashoutTarget := 2,
                     reason := "Fixed target bet" },
       bankrollAfter := 101 }
     (by norm_num)
     (by norm_num [runBacktestTrace, runBacktestCore, roundsToTest, setupState,
        Strategy.reset, runLoop, engineStep, Strategy.decide, FixedTargetStrategy.decide,
        lossPercent, profitPercent, initState, mkRound, resolveBet, Strategy.onRoundResult,
        Strategy.baseOnRoundResult, mkTrade, max_def, min_def])⟩

/-- C3 (counterexample): a default Martingale with configured bankroll 1
is ruined at the end of the only filtered round (bankroll hits 0); the
run still returns a report, but rounds_bet equals the number of filtered
rounds instead of being strictly smaller, because the ruin round was the
last one and carried a bet. -/
theorem C3_ruin_at_last_round_counterexample :
    (((runBacktestTrace (.martingale {}) (initState (.martingale {}) 1000)
        { initialBankroll := 1, warmupRounds := 0 } [mkRound 1 (3/2)])[0]?).map
        StepLog.bankrollAfter = some 0) ∧
    ¬ ((runBacktest (.martingale {}) (initState (.martingale {}) 1000)
        { initialBankroll := 1, warmupRounds := 0 } [mkRound 1 (3/2)]).roundsBet
      < (roundsToTest { initialBankroll := 1, warmupRounds := 0 }
          [mkRound 1 (3/2)]).length) := by
  constructor
  · norm_num [runBacktestTrace, runBacktestCore, roundsToTest, setupState, Strategy.reset,
      runLoop, engineStep, Strategy.decide, MartingaleStrategy.decide, lossPercent,
      initState, mkRound, resolveBet, Strategy.onRoundResult, Strategy.baseOnRoundResult,
      mkTrade]
  · norm_num [runBacktest, runBacktestCore, roundsToTest, setupState, Strategy.reset,
      runLoop, engineStep, Strategy.decide, MartingaleStrategy.decide, lossPercent,
      initState, mkRound, resolveBet, Strategy.onRoundResult, Strategy.baseOnRoundResult,
      mkTrade, calculateMetrics_roundsBet]

/-- C3 (amended): ruin is terminal and not an error — once the bankroll
is ≤ 0 at the end of the step with index k, that step is the last one
processed (no further decide or on_round_result call), the run returns a
metrics report with rounds_bet ≤ k + 1 ≤ number of filtered rounds, and
rounds_bet is strictly below the number of filtered rounds whenever the
ruin round is not the last filtered round (equality is possible when
ruin strikes exactly at the final round). -/
theorem C3_ruin_terminal_amended (v : StrategyVariant) (st0 : StrategyState)
    (cfg : BacktestConfig) (rounds : List RoundData) (k : ℕ) (e : StepLog)
    (he : (runBacktestTrace v st0 cfg rounds)[k]? = some e)
    (hruin : e.bankrollAfter ≤ 0) :
    (runBacktestTrace v st0 cfg rounds).length = k + 1 ∧
    (runBacktest v st0 cfg rounds).roundsBet ≤ k + 1 ∧
    k + 1 ≤ (roundsToTest cfg rounds).length ∧
    (k + 1 < (roundsToTest cfg rounds).length →
      (runBacktest v st0 cfg rounds).roundsBet < (roundsToTest cfg rounds).length) := by
  by_cases hrts : roundsToTest cfg rounds = []
  · exfalso
    rw [runBacktestTrace] at he
    simp [runBacktestCore, hrts] at he
  · have he' : (runLoop v (setupState v st0 cfg) [] (roundsToTest cfg rounds)).2[k]?
        = some e := by
      simpa [runBacktestTrace, runBacktestCore, hrts] using he
    have hlen := runLoop_ruin_last v (roundsToTest cfg rounds) (setupState v st0 cfg)
      [] k e he' hruin
    have htr : (runBacktestTrace v st0 cfg rounds).length = k + 1 := by
      simpa [runBacktestTrace, runBacktestCore, hrts] using hlen
    have hsetup : (setupState v st0 cfg).history = [] := by
      cases v <;> rfl
    have hbet : (runBacktest v st0 cfg rounds).roundsBet
        = (runLoop v (setupState v st0 cfg) [] (roundsToTest cfg rounds)).1.history.length := by
      simp [runBacktest, runBacktestCore, hrts, calculateMetrics_roundsBet]
    have hhist := runLoop_history_length_le v (roundsToTest cfg rounds)
      (setupState v st0 cfg) []
    rw [hsetup] at hhist
    simp only [List.length_nil, Nat.zero_add] at hhist
    have hle : (runBacktest v st0 cfg rounds).roundsBet ≤ k + 1 := by
      rw [hbet]
      omega
    have hlelen := runLoop_trace_length_le v (roundsToTest cfg rounds)
      (setupState v st0 cfg) []
    exact ⟨htr, hle, by omega, fun hlt => lt_of_le_of_lt hle hlt⟩

/-- Witness for C3 (amended): with two filtered rounds and ruin at step
0, the loop stops after one step and rounds_bet stays strictly below the
filtered-round count. -/
theorem C3_ruin_terminal_amended_witness :
    (runBacktestTrace (.martingale {}) (initState (.martingale {}) 1000)
        { initialBankroll := 1, warmupRounds := 0 }
        [mkRound 1 (3/2), mkRound 2 (3/2)]).length = 0 + 1 ∧
    (runBacktest (.martingale {}) (initState (.martingale {}) 1000)
        { initialBankroll := 1, warmupRounds := 0 }
        [mkRound 1 (3/2), mkRound 2 (3/2)]).roundsBet ≤ 0 + 1 ∧
    0 + 1 ≤ (roundsToTest { initialBankroll := 1, warmupRounds := 0 }
        [mkRound 1 (3/2), mkRound 2 (3/2)]).length ∧
    (0 + 1 < (roundsToTest { initialBankroll := 1, warmupRounds := 0 }
        [mkRound 1 (3/2), mkRound 2 (3/2)]).length →
      (runBacktest (.martingale {}) (initState (.martingale {}) 1000)
          { initialBankroll := 1, warmupRounds := 0 }
          [mkRound 1 (3/2), mkRound 2 (3/2)]).roundsBet
        < (roundsToTest { initialBankroll := 1, warmupRounds := 0 }
            [mkRound 1 (3/2), mkRound 2 (3/2)]).length) :=
  C3_ruin_terminal_amended (.martingale {}) (initState (.martingale {}) 1000)
    { initialBankroll := 1, warmupRounds := 0 } [mkRound 1 (3/2), mkRound 2 (3/2)] 0
    { historyArg := [], round := mkRound 1 (3/2),
      decision := { shouldBet := true, betAmount := 1, cashoutTarget := 2,
                    reason := "Martingale bet" },
      bankrollAfter := 0 }
    (by
      have h2 : ([mkRound 1 (3/2), mkRound 2 (3/2)] : List RoundData) ≠ [] :=
        List.cons_ne_nil _ _
      simp only [mkRound] at h2
      norm_num [runBacktestTrace, runBacktestCore, roundsToTest, setupState,
        Strategy.reset, runLoop, engineStep, Strategy.decide, MartingaleStrategy.decide,
        lossPercent, initState, mkRound, resolveBet, Strategy.onRoundResult,
        Strategy.baseOnRoundResult, mkTrade, h2])
    (by norm_num)

/-- C4: exactly-once state update — in every engine iteration,
`on_round_result` is invoked iff the preceding `decide` returned
should_bet = true; when it is, the bankroll moves by exactly the
resolved profit and exactly one trade record is appended (so the log
grows in lock step with `total_bets`), and when it is not, neither the
bankroll nor the log changes; consequently, throughout every run the
trade-log length equals `total_bets` and `consecutive_wins` and
`consecutive_losses` are never both nonzero. -/
theorem C4_exactly_once_update (v : StrategyVariant) (st : StrategyState)
    (hist : List RoundData) (r : RoundData) (st0 : StrategyState)
    (cfg : BacktestConfig) (rounds : List RoundData) :
    ((Strategy.decide v st hist).1.shouldBet = true →
      engineStep v st hist r
        = Strategy.onRoundResult v (Strategy.decide v st hist).1 r
            (resolveBet v (Strategy.decide v st hist).1 r).1
            (resolveBet v (Strategy.decide v st hist).1 r).2
            (Strategy.decide v st hist).2 ∧
      (engineStep v st hist r).bankroll
        = st.bankroll + (resolveBet v (Strategy.decide v st hist).1 r).2 ∧
      (engineStep v st hist r).history
        = st.history ++ [mkTrade (Strategy.decide v st hist).1 r
            (resolveBet v (Strategy.decide v st hist).1 r).1
            (resolveBet v (Strategy.decide v st hist).1 r).2
            (st.bankroll + (resolveBet v (Strategy.decide v st hist).1 r).2)] ∧
      (engineStep v st hist r).totalBets = st.totalBets + 1) ∧
    ((Strategy.decide v st hist).1.shouldBet = false →
      engineStep v st hist r = (Strategy.decide v st hist).2 ∧
      (engineStep v st hist r).history = st.history ∧
      (engineStep v st hist r).bankroll = st.bankroll ∧
      (engineStep v st hist r).totalBets = st.totalBets) ∧
    ((runBacktestCore v st0 cfg rounds).1.history.length
        = (runBacktestCore v st0 cfg rounds).1.totalBets ∧
      ((runBacktestCore v st0 cfg rounds).1.consecutiveWins = 0 ∨
        (runBacktestCore v st0 cfg rounds).1.consecutiveLosses = 0)) := by
  refine ⟨?_, ?_, ?_⟩
  · intro hb
    exact engineStep_bet v st hist r hb
  · intro hb
    obtain ⟨hf1, hf2, hf3, hf4, hf5, hf6⟩ := decide_preserves_frame v st hist
    refine ⟨engineStep_noBet v st hist r hb, ?_, ?_, ?_⟩
    · rw [engineStep_noBet v st hist r hb, hf3]
    · rw [engineStep_noBet v st hist r hb, hf1]
    · rw [engineStep_noBet v st hist r hb, hf4]
  · have hinv0 := setupState_inv v st0 cfg
    by_cases hrts : roundsToTest cfg rounds = []
    · have hcore : (runBacktestCore v st0 cfg rounds).1 = setupState v st0 cfg := by
        simp [runBacktestCore, hrts]
      rw [hcore]
      exact hinv0
    · have hcore : (runBacktestCore v st0 cfg rounds).1
          = (runLoop v (setupState v st0 cfg) [] (roundsToTest cfg rounds)).1 := by
        simp [runBacktestCore, hrts]
      rw [hcore]
      exact runLoop_inv v (roundsToTest cfg rounds) (setupState v st0 cfg) [] hinv0

/-- Witness for C4 on a concrete betting step: the fixed-target default
strategy bets on the first round and the bankroll moves by exactly the
resolved profit. -/
theorem C4_exactly_once_update_witness :
    ((Strategy.decide (.fixedTarget {}) (initState (.fixedTarget {}) 100) []).1.shouldBet
      = true) ∧
    (engineStep (.fixedTarget {}) (initState (.fixedTarget {}) 100) [] (mkRound 1 3)).bankroll
      = (initState (.fixedTarget {}) 100).bankroll
        + (resolveBet (.fixedTarget {})
            (Strategy.decide (.fixedTarget {}) (initState (.fixedTarget {}) 100) []).1
            (mkRound 1 3)).2 :=
  ⟨by norm_num [Strategy.decide, FixedTargetStrategy.decide, initState, lossPercent,
      profitPercent, max_def, min_def],
   ((C4_exactly_once_update (.fixedTarget {}) (initState (.fixedTarget {}) 100) []
      (mkRound 1 3) (initState (.fixedTarget {}) 100) {} []).1
     (by norm_num [Strategy.decide, FixedTargetStrategy.decide, initState, lossPercent,
       profitPercent, max_def, min_def])).2.1⟩

/-- C7: grid-search ranking — the returned list is exactly the
successful (params, metrics) pairs (failures filtered out), arranged in
descending order of the chosen metric under the float order in which
+infinity sorts above every value and -infinity below every value
(`XVal.le`), and the sort is stable: for each metric value, the pairs
carrying it keep their original cartesian-product enumeration order. -/
theorem C7_grid_search_ranking {α M : Type} (paramValues : List (List α))
    (run : List α → Option M) (key : M → XVal) :
    List.Perm (gridSearch paramValues run key)
      ((cartesianProduct paramValues).filterMap (fun c => (run c).map (fun m => (c, m)))) ∧
    (gridSearch paramValues run key).Pairwise
      (fun a b => XVal.le (key b.2) (key a.2) = true) ∧
    (∀ k : XVal,
      (gridSearch paramValues run key).filter (fun x => decide (key x.2 = k))
        = ((cartesianProduct paramValues).filterMap
            (fun c => (run c).map (fun m => (c, m)))).filter
            (fun x => decide (key x.2 = k))) := by
  have htrans : ∀ a b c : List α × M,
      XVal.le (key b.2) (key a.2) = true → XVal.le (key c.2) (key b.2) = true →
      XVal.le (key c.2) (key a.2) = true := fun _ _ _ h1 h2 => XVal.leTrans h2 h1
  have htotal : ∀ a b : List α × M,
      (XVal.le (key b.2) (key a.2) || XVal.le (key a.2) (key b.2)) = true :=
    fun a b => XVal.leTotal (key b.2) (key a.2)
  refine ⟨?_, ?_, ?_⟩
  · simpa [gridSearch] using
      List.mergeSort_perm
        ((cartesianProduct paramValues).filterMap (fun c => (run c).map (fun m => (c, m))))
        (fun a b => XVal.le (key b.2) (key a.2))
  · simpa [gridSearch] using
      @List.sorted_mergeSort _ (fun a b => XVal.le (key b.2) (key a.2)) htrans htotal
        ((cartesianProduct paramValues).filterMap (fun c => (run c).map (fun m => (c, m))))
  · intro k
    have hpair : (((cartesianProduct paramValues).filterMap
          (fun c => (run c).map (fun m => (c, m)))).filter
          (fun x => decide (key x.2 = k))).Pairwise
          (fun a b => XVal.le (key b.2) (key a.2) = true) := by
      refine List.pairwise_of_forall_mem_list ?_
      intro a ha b hb
      have hka : key a.2 = k := of_decide_eq_true (List.mem_filter.mp ha).2
      have hkb : key b.2 = k := of_decide_eq_true (List.mem_filter.mp hb).2
      rw [hka, hkb]
      exact XVal.leRefl k
    have hsub2 :=
      @List.sublist_mergeSort _ (fun a b => XVal.le (key b.2) (key a.2))
        ((cartesianProduct paramValues).filterMap (fun c => (run c).map (fun m => (c, m))))
        htrans htotal _ hpair
        (List.filter_sublist
          ((cartesianProduct paramValues).filterMap (fun c => (run c).map (fun m => (c, m)))))
    have hself : (((cartesianProduct paramValues).filterMap
          (fun c => (run c).map (fun m => (c, m)))).filter
            (fun x => decide (key x.2 = k))).filter (fun x => decide (key x.2 = k))
        = ((cartesianProduct paramValues).filterMap
            (fun c => (run c).map (fun m => (c, m)))).filter (fun x => decide (key x.2 = k)) :=
      List.filter_eq_self.mpr (fun a ha => (List.mem_filter.mp ha).2)
    have hsub3 := hsub2.filter (fun x => decide (key x.2 = k))
    rw [hself] at hsub3
    have hperm :=
      (List.mergeSort_perm
        ((cartesianProduct paramValues).filterMap (fun c => (run c).map (fun m => (c, m))))
        (fun a b => XVal.le (key b.2) (key a.2))).filter (fun x => decide (key x.2 = k))
    have heq := hsub3.eq_of_length hperm.length_eq.symm
    simpa [gridSearch] using heq.symm
